import Mathlib

/-!
Shallow embedding of the remote item search subsystem of the syncify/musify
repository, centred on `musify/libraries/remote/core/processors/search.py`
(`RemoteItemSearcher`) together with the item equality semantics of
`src/syncify/abstract/item.py` (`Item.__eq__`).

External collaborators (the remote API client, the object factory and the
`ItemMatcher.match` scorer, whose implementations live outside the sources)
are modelled as function parameters collected in a `SearcherCtx` record.
Mutation of items (the `item.uri = match.uri` assignments) is modelled by
explicit state passing over the list of items of a collection.  Exceptions
are modelled with `Except`.  Every query issued to the remote API is
recorded in a log (a list of the query strings, in call order).
-/

namespace Syncify

/-- The tag fields used by search configurations (`musify.core.enum.TagFields`);
only the members actually referenced by the search processor are modelled. -/
inductive TagField
  | name
  | title
  | artist
  | album
  | length
deriving DecidableEq, Repr

/-- `RemoteObjectType`: the remote object kinds for which `search_settings`
holds a configuration (looking up any other kind raises `KeyError`). -/
inductive RemoteObjectType
  | track
  | album
deriving DecidableEq, Repr

/-- The exceptions that can escape the embedded code:
`apiError` models an exception raised by the remote API client inside
`api.query`, `attributeError` models the `MusifyAttributeError` raised by
`_determine_remote_object_type`, and `typeError` models the `TypeError`
raised by iterating over `None` (`for response in responses`). -/
inductive MusifyError
  | apiError
  | attributeError
  | typeError
deriving DecidableEq, Repr

/-- A local item (`MusifyItemSettable`): `name`, the mutable `uri` field with
its tri-state `has_uri` companion (`some true` real URI / `some false`
explicitly unavailable / `none` not yet searched), the remote object kind
reported by the item's `kind` attribute (`none` models a missing attribute)
and the cleaned tags cached on the item (`item.clean_tags`). -/
structure Item where
  name : String
  uri : Option String := none
  has_uri : Option Bool := none
  kind : Option RemoteObjectType := none
  clean_tags : List (TagField × String) := []
deriving DecidableEq, Repr

/-- A remote track candidate as produced by `factory[TRACK]` from an API
response; the search code only reads its `uri` and `has_uri`. -/
structure RemoteTrack where
  name : String := ""
  uri : Option String := none
  has_uri : Option Bool := none
deriving DecidableEq, Repr

/-- A remote album as produced by `factory[ALBUM]` from an API response:
`total` is the `_total` used to order unit-search candidates, `items` is the
album's track listing. -/
structure RemoteAlbum where
  name : String := ""
  uri : Option String := none
  has_uri : Option Bool := none
  total : Int := 0
  items : List RemoteTrack := []
deriving DecidableEq, Repr

/-- Raw API responses are opaque JSON objects which the search code only ever
hands to `api.extend_items` and to the object factory; we carry them as
`RemoteAlbum`-shaped data. -/
abbrev Response := RemoteAlbum

/-- An item collection (`MusifyCollection`): `compilation = none` models a
collection without a `compilation` attribute (`getattr` default `True`),
`kind = none` a collection without a `kind` attribute. -/
structure MusifyCollection where
  name : String
  items : List Item := []
  compilation : Option Bool := none
  kind : Option RemoteObjectType := none
  clean_tags : List (TagField × String) := []
deriving DecidableEq, Repr

/-- `SearchConfig` (dataclass in `search.py`): match fields, the up-to-three
cascading search field sets, result count and score thresholds. -/
structure SearchConfig where
  match_fields : List TagField
  search_fields_1 : List TagField := [TagField.name]
  search_fields_2 : List TagField := []
  search_fields_3 : List TagField := []
  result_count : Nat := 10
  min_score : ℚ := 1/10
  max_score : ℚ := 8/10
  allow_karaoke : Bool := false

/-- `ItemSearchResult`: the three outcome sequences per collection. -/
structure ItemSearchResult where
  matched : List Item := []
  unmatched : List Item := []
  skipped : List Item := []
deriving DecidableEq, Repr

/-- Python truthiness of a tri-state `bool | None` value. -/
def truthy : Option Bool → Bool
  | some b => b
  | none => false

/-- The dummy URI marking an item as explicitly unavailable
(`__UNAVAILABLE_URI_VALUE__` in `src/syncify/spotify/__init__.py`). -/
def unavailableUriValue : String := "spotify:track:unavailable"

/-- Modelled from the spec: the `Item.uri` setter is abstract in the sources
(its doc reads "Set both the `uri` property and the `has_uri` property") and
its concrete implementation is not under `src/`.  Following the spec's
three-state semantics for `SourceItem.uri` (`has_uri == true` URI set and
real, `false` explicitly unavailable, `None` unknown), assigning a value
updates `uri` and derives `has_uri`: `none` gives unknown, the unavailable
dummy URI gives `some false`, any other URI gives `some true`. -/
def setUri (item : Item) (value : Option String) : Item :=
  { item with
    uri := value
    has_uri := match value with
      | none => none
      | some s => some (s != unavailableUriValue) }

/-- `Item.__eq__` from `src/syncify/abstract/item.py`: "URI attributes equal
if at least one item has a URI, names equal otherwise". -/
def itemEq (a b : Item) : Bool :=
  if truthy a.has_uri || truthy b.has_uri then
    a.has_uri == b.has_uri && a.uri == b.uri
  else
    a.name == b.name

/-- Python's `item in seq` membership test, which compares with `__eq__`. -/
def memEq (item : Item) (seq : List Item) : Bool :=
  seq.any (fun other => itemEq item other)

/-- The external collaborators of `RemoteItemSearcher`, injected as functions:
the remote API (`query` and `extend_items`), the object factory for each
kind, and the inherited `ItemMatcher.match` scorer (one signature for items
against remote tracks, one for collections against remote albums; the
matcher's implementation lives outside the searcher). -/
structure SearcherCtx where
  query : String → RemoteObjectType → Nat → Except MusifyError (List Response)
  extend_items : Response → Response
  factory_track : Response → RemoteTrack
  factory_album : Response → RemoteAlbum
  match_item : Item → List RemoteTrack → List TagField → ℚ → ℚ → Bool → Option RemoteTrack
  match_collection :
    MusifyCollection → List RemoteAlbum → List TagField → ℚ → ℚ → Bool → Option RemoteAlbum

/-- `RemoteItemSearcher.search_settings`: the per-kind `SearchConfig` table. -/
def search_settings : RemoteObjectType → SearchConfig
  | .track =>
    { match_fields := [.title, .artist, .album, .length]
      search_fields_1 := [.name, .artist]
      search_fields_2 := [.name, .album]
      search_fields_3 := [.name]
      result_count := 10
      min_score := 1/10
      max_score := 8/10
      allow_karaoke := false }
  | .album =>
    { match_fields := [.artist, .album, .length]
      search_fields_1 := [.name, .artist]
      search_fields_2 := [.name]
      search_fields_3 := []
      result_count := 5
      min_score := 1/10
      max_score := 7/10
      allow_karaoke := false }

/-- `item.clean_tags.get(key)`. -/
def tagGet (tags : List (TagField × String)) (key : TagField) : Option String :=
  (tags.find? (fun p => p.1 == key)).map (fun p => p.2)

/-- `" ".join(str(attr) for attr in attributes if attr)`: join the truthy
(present and non-empty) attribute values with a space. -/
def joinTruthy (attributes : List (Option String)) : String :=
  String.intercalate " " ((attributes.filterMap id).filter (fun s => s != ""))

/-- `execute_query` (inner function of `_get_results`): build the query string
from the cleaned tags of the given `keys` and call `api.query`; returns the
API outcome together with the query string used. -/
def execute_query (ctx : SearcherCtx) (tags : List (TagField × String))
    (kind : RemoteObjectType) (settings : SearchConfig) (keys : List TagField) :
    Except MusifyError (List Response) × String :=
  let attributes := keys.map (fun key => tagGet tags key)
  let q := joinTruthy attributes
  (ctx.query q kind settings.result_count, q)

/-- `RemoteItemSearcher._get_results`: query the API with the cascading field
sets; `some results` on the first non-empty outcome, `none` when the cascade
is exhausted (the Python function falls through and returns `None`).  The
second component records every query string issued, in call order. -/
def get_results (ctx : SearcherCtx) (tags : List (TagField × String))
    (kind : RemoteObjectType) (settings : SearchConfig) :
    Except MusifyError (Option (List Response) × List String) :=
  match execute_query ctx tags kind settings settings.search_fields_1 with
  | (.error e, _) => .error e
  | (.ok r1, q1) =>
    if r1 ≠ [] then .ok (some r1, [q1])
    else if settings.search_fields_2 ≠ [] then
      match execute_query ctx tags kind settings settings.search_fields_2 with
      | (.error e, _) => .error e
      | (.ok r2, q2) =>
        if r2 ≠ [] then .ok (some r2, [q1, q2])
        else if settings.search_fields_3 ≠ [] then
          match execute_query ctx tags kind settings settings.search_fields_3 with
          | (.error e, _) => .error e
          | (.ok r3, q3) => .ok ((if r3 ≠ [] then some r3 else none), [q1, q2, q3])
        else .ok (none, [q1, q2])
    else if settings.search_fields_3 ≠ [] then
      match execute_query ctx tags kind settings settings.search_fields_3 with
      | (.error e, _) => .error e
      | (.ok r3, q3) => .ok ((if r3 ≠ [] then some r3 else none), [q1, q3])
    else .ok (none, [q1])

/-- `RemoteItemSearcher._get_item_match`: determine the item's kind and
config; when no `results` are passed, run `_get_results` and feed the factory
image of the responses (`responses or ()`) to `self.match` — the map object is
truthy, so `match` is invoked even on an empty result set; when a `results`
list is passed, `self.match(...) if results else None` skips the matcher on
an empty list.  Returns the `(item, match)` pair and the query log. -/
def get_item_match (ctx : SearcherCtx) (item : Item) (match_on : Option (List TagField))
    (results : Option (List RemoteTrack)) :
    Except MusifyError ((Item × Option RemoteTrack) × List String) :=
  match item.kind with
  | none => .error .attributeError
  | some kind =>
    let search_config := search_settings kind
    let mo := match_on.getD search_config.match_fields
    match results with
    | none =>
      match get_results ctx item.clean_tags kind search_config with
      | .error e => .error e
      | .ok (responses, log) =>
        let res := ((responses.getD []).map ctx.factory_track)
        .ok ((item, ctx.match_item item res mo search_config.min_score
          search_config.max_score search_config.allow_karaoke), log)
    | some res =>
      let m := if res.isEmpty then none
        else ctx.match_item item res mo search_config.min_score
          search_config.max_score search_config.allow_karaoke
      .ok ((item, m), [])

/-- The assignment loop of `_search_items` / `_search_collection_unit`:
`if match and match.has_uri: item.uri = match.uri`. -/
def apply_match (item : Item) (m : Option RemoteTrack) : Item :=
  match m with
  | some r => if truthy r.has_uri then setUri item r.uri else item
  | none => item

/-- `RemoteItemSearcher._search_items`: run `_get_item_match` on every item
whose `has_uri` is `None` and assign the matched URI back onto the item.
The first exception raised by a per-item task propagates (there is no
try/except in `_search_items`). -/
def search_items_go (ctx : SearcherCtx) :
    List Item → Except MusifyError (List Item × List String)
  | [] => .ok ([], [])
  | item :: rest =>
    if item.has_uri = none then
      match get_item_match ctx item none none with
      | .error e => .error e
      | .ok ((it, m), log) =>
        match search_items_go ctx rest with
        | .error e => .error e
        | .ok (rest2, log2) => .ok (apply_match it m :: rest2, log ++ log2)
    else
      match search_items_go ctx rest with
      | .error e => .error e
      | .ok (rest2, log2) => .ok (item :: rest2, log2)

/-- The per-item pass of `_search_collection_unit` after an album match:
items whose `has_uri` is `None` are matched with `match_on=[Tag.TITLE]`
against the matched album's own items (`results=result.items`). -/
def title_match_step (ctx : SearcherCtx) (result : RemoteAlbum) (item : Item) :
    Except MusifyError Item :=
  if item.has_uri = none then
    match get_item_match ctx item (some [TagField.title]) (some result.items) with
    | .error e => .error e
    | .ok ((it, m), _) => .ok (apply_match it m)
  else .ok item

/-- The title-only pass of `_search_collection_unit` over the collection's
items (the `executor.map` tasks and their assignment loop, in item order). -/
def title_pass (ctx : SearcherCtx) (result : RemoteAlbum) :
    List Item → Except MusifyError (List Item)
  | [] => .ok []
  | item :: rest =>
    match title_match_step ctx result item with
    | .error e => .error e
    | .ok it2 =>
      match title_pass ctx result rest with
      | .error e => .error e
      | .ok rest2 => .ok (it2 :: rest2)

/-- The response-gathering phase of `_search_collection_unit`: run
`_get_results` and call `api.extend_items` on every response
(`for response in responses: self.api.extend_items(...)`).  When
`_get_results` returned `None`, the `for` statement raises
`TypeError: NoneType object is not iterable`. -/
def unit_responses (ctx : SearcherCtx) (collection : MusifyCollection)
    (kind : RemoteObjectType) (search_config : SearchConfig) :
    Except MusifyError (List Response × List String) :=
  match get_results ctx collection.clean_tags kind search_config with
  | .error e => .error e
  | .ok (none, _) => .error .typeError
  | .ok (some responses, log) => .ok (responses.map ctx.extend_items, log)

/-- The sort key of `_search_collection_unit`:
`abs(x._total - len(collection))`. -/
def sort_key (collection : MusifyCollection) (x : RemoteAlbum) : Nat :=
  (x.total - (collection.items.length : Int)).natAbs

/-- Stable insertion for `sort_by_key`: the element is placed before the
first existing element with a greater-or-equal key. -/
def insert_by_key {α : Type} (key : α → Nat) (x : α) : List α → List α
  | [] => [x]
  | y :: ys => if key x ≤ key y then x :: y :: ys else y :: insert_by_key key x ys

/-- Python's `sorted(..., key=...)` is a stable sort by key; modelled as a
stable insertion sort. -/
def sort_by_key {α : Type} (key : α → Nat) : List α → List α
  | [] => []
  | x :: xs => insert_by_key key x (sort_by_key key xs)

/-- The candidate list of `_search_collection_unit`: factory image of the
extended responses, sorted to prioritise results whose track total is closest
to the input collection's item count (Python's `sorted` is stable). -/
def unit_results (ctx : SearcherCtx) (collection : MusifyCollection)
    (kind : RemoteObjectType) (search_config : SearchConfig) :
    Except MusifyError (List RemoteAlbum × List String) :=
  match unit_responses ctx collection kind search_config with
  | .error e => .error e
  | .ok (responses, log) =>
    .ok (sort_by_key (sort_key collection) (responses.map ctx.factory_album), log)

/-- `RemoteItemSearcher._search_collection_unit`: skip when every item's
`has_uri` is truthy; otherwise query for the collection as a unit using the
config of the collection's kind, extend and sort the responses, run
`self.match` on the whole collection, and on a match run the title-only
per-item pass.  Returns the updated items and the query log. -/
def search_collection_unit (ctx : SearcherCtx) (collection : MusifyCollection) :
    Except MusifyError (List Item × List String) :=
  if collection.items.all (fun item => truthy item.has_uri) then
    .ok (collection.items, [])
  else
    match collection.kind with
    | none => .error .attributeError
    | some kind =>
      let search_config := search_settings kind
      match unit_results ctx collection kind search_config with
      | .error e => .error e
      | .ok (results, log) =>
        match ctx.match_collection collection results search_config.match_fields
            search_config.min_score search_config.max_score
            search_config.allow_karaoke with
        | none => .ok (collection.items, log)
        | some result =>
          match title_pass ctx result collection.items with
          | .error e => .error e
          | .ok items2 => .ok (items2, log)

/-- The item-state evolution of `RemoteItemSearcher._search_collection`:
unit search first for non-compilation collections (`getattr(collection,
"compilation", True) is False`), then `_search_items` when items are still
missing a URI; compilation-like collections go straight to `_search_items`. -/
def search_collection_items (ctx : SearcherCtx) (collection : MusifyCollection) :
    Except MusifyError (List Item × List String) :=
  if (collection.compilation.getD true) = false then
    match search_collection_unit ctx collection with
    | .error e => .error e
    | .ok (items1, log1) =>
      let missing := items1.filter (fun item => item.has_uri == none)
      if missing ≠ [] then
        match search_items_go ctx items1 with
        | .error e => .error e
        | .ok (items2, log2) => .ok (items2, log1 ++ log2)
      else .ok (items1, log1)
  else
    search_items_go ctx collection.items

/-- `RemoteItemSearcher._search_collection`: snapshot the `skipped` tuple
(items whose `has_uri` was not `None` before the search), run the search,
then classify the final items — `matched`/`unmatched` exclude any item that
compares equal (`item not in skipped`, via `Item.__eq__`) to a skipped one. -/
def search_collection (ctx : SearcherCtx) (collection : MusifyCollection) :
    Except MusifyError (ItemSearchResult × List String) :=
  let skipped := collection.items.filter (fun item => item.has_uri != none)
  match search_collection_items ctx collection with
  | .error e => .error e
  | .ok (items2, log) =>
    .ok ({ matched := items2.filter
             (fun item => truthy item.has_uri && !(memEq item skipped))
           unmatched := items2.filter
             (fun item => item.has_uri == none && !(memEq item skipped))
           skipped := skipped }, log)

/-- Python `dict` insertion: an existing key keeps its position but its value
is overwritten; a new key is appended. -/
def dict_insert (m : List (String × ItemSearchResult)) (key : String)
    (value : ItemSearchResult) : List (String × ItemSearchResult) :=
  if m.any (fun p => p.1 == key) then
    m.map (fun p => if p.1 == key then (key, value) else p)
  else m ++ [(key, value)]

/-- `dict(pairs)`: build a Python dict from a sequence of key/value pairs
(later values for a duplicated key overwrite earlier ones). -/
def dict_of_pairs (pairs : List (String × ItemSearchResult)) :
    List (String × ItemSearchResult) :=
  pairs.foldl (fun m p => dict_insert m p.1 p.2) []

/-- The per-collection loop of `RemoteItemSearcher.search`: build the
`(collection.name, result)` pairs in input order, propagating the first
exception, and concatenate the query logs. -/
def search_go (ctx : SearcherCtx) :
    List MusifyCollection →
    Except MusifyError (List (String × ItemSearchResult) × List String)
  | [] => .ok ([], [])
  | c :: rest =>
    match search_collection ctx c with
    | .error e => .error e
    | .ok (r, log) =>
      match search_go ctx rest with
      | .error e => .error e
      | .ok (pairs, log2) => .ok ((c.name, r) :: pairs, log ++ log2)

/-- `RemoteItemSearcher.search`: return `{}` when no item of any collection
has `has_uri is None`; otherwise process every collection and build the
result `dict` keyed by collection name. -/
def search (ctx : SearcherCtx) (collections : List MusifyCollection) :
    Except MusifyError (List (String × ItemSearchResult) × List String) :=
  if collections.all (fun c => c.items.all (fun item => item.has_uri != none)) then
    .ok ([], [])
  else
    match search_go ctx collections with
    | .error e => .error e
    | .ok (pairs, log) => .ok (dict_of_pairs pairs, log)

/-- Modelled from the spec: the candidate scan of `ScoringMatcher.match`
(`ItemMatcher.match`, implementation not under `src/`).  Walks the remaining
candidates in order, tracking the best total score seen so far (ties keep the
first candidate encountered); as soon as a candidate scores at least
`max_score` the scan stops and that candidate is taken.  The returned counter
records how many candidates were scored. -/
def match_scan {α : Type} (score : α → ℚ) (max_score : ℚ) :
    List α → Option (α × ℚ) → Nat → Option (α × ℚ) × Nat
  | [], best, count => (best, count)
  | c :: rest, best, count =>
    let s := score c
    if max_score ≤ s then (some (c, s), count + 1)
    else
      let best2 := match best with
        | some (b, bs) => if bs < s then some (c, s) else some (b, bs)
        | none => some (c, s)
      match_scan score max_score rest best2 (count + 1)

/-- Modelled from the spec: `ScoringMatcher.match` (implementation not under
`src/`), instrumented with the number of candidates scored.  Spec section
4.3: filter karaoke candidates unless allowed or the source item is itself
karaoke-like; scan the remaining candidates (stopping early at `max_score`);
return the selected candidate only if its score reaches `min_score`,
otherwise `None`. -/
def score_match_counted {α : Type} (score : α → ℚ) (is_karaoke : α → Bool)
    (source_karaoke : Bool) (allow_karaoke : Bool) (min_score max_score : ℚ)
    (candidates : List α) : Option α × Nat :=
  let remaining := if allow_karaoke || source_karaoke then candidates
    else candidates.filter (fun c => !(is_karaoke c))
  match match_scan score max_score remaining none 0 with
  | (some (b, bs), count) => ((if min_score ≤ bs then some b else none), count)
  | (none, count) => (none, count)

/-- Modelled from the spec: `ScoringMatcher.match` — the selected candidate,
forgetting the instrumentation counter. -/
def score_match {α : Type} (score : α → ℚ) (is_karaoke : α → Bool)
    (source_karaoke : Bool) (allow_karaoke : Bool) (min_score max_score : ℚ)
    (candidates : List α) : Option α :=
  (score_match_counted score is_karaoke source_karaoke allow_karaoke
    min_score max_score candidates).1

/-- `r` is a possible output of the injected item matcher. -/
def MatcherOutput (ctx : SearcherCtx) (r : RemoteTrack) : Prop :=
  ∃ it res mo mi ma ka, ctx.match_item it res mo mi ma ka = some r

/-- How one search pass may change a single item: an item that already had a
URI decision (`has_uri` not `None`) is untouched; an item with `has_uri`
unknown is either untouched or assigned the URI of a matcher result whose
`has_uri` is truthy. -/
def SearchStep (ctx : SearcherCtx) (i i2 : Item) : Prop :=
  (i.has_uri ≠ none → i2 = i) ∧
  (i.has_uri = none →
    i2 = i ∨ ∃ r, MatcherOutput ctx r ∧ truthy r.has_uri = true ∧ i2 = setUri i r.uri)

/-!
### Concrete fixtures used by witnesses and counterexamples
-/

instance {ε α : Type} [DecidableEq ε] [DecidableEq α] : DecidableEq (Except ε α) :=
  fun a b =>
    match a, b with
    | .error e, .error f => decidable_of_iff (e = f) (by simp)
    | .error _, .ok _ => isFalse (by simp)
    | .ok _, .error _ => isFalse (by simp)
    | .ok x, .ok y => decidable_of_iff (x = y) (by simp)

/-- A context whose API always answers with no results and whose matcher
never matches. -/
def ctx0 : SearcherCtx :=
  { query := fun _ _ _ => .ok []
    extend_items := id
    factory_track := fun r => { name := r.name, uri := r.uri, has_uri := r.has_uri }
    factory_album := id
    match_item := fun _ _ _ _ _ _ => none
    match_collection := fun _ _ _ _ _ _ => none }

/-- An item that already carries a real URI. -/
def itemReal : Item :=
  { name := "done", uri := some "spotify:track:done", has_uri := some true,
    kind := some .track, clean_tags := [(.name, "done")] }

/-- An item that has not been searched yet. -/
def itemTodo : Item :=
  { name := "todo", uri := none, has_uri := none,
    kind := some .track, clean_tags := [(.name, "todo")] }

/-- A compilation-like collection holding one decided and one undecided item. -/
def collMixed : MusifyCollection :=
  { name := "mixed", items := [itemReal, itemTodo], compilation := some true }

/-- An item explicitly marked unavailable, sharing its name with `itemDupTodo`. -/
def itemDupUnavail : Item :=
  { name := "dup", uri := some unavailableUriValue, has_uri := some false,
    kind := some .track, clean_tags := [(.name, "dup")] }

/-- A not-yet-searched item sharing its name with `itemDupUnavail`. -/
def itemDupTodo : Item :=
  { name := "dup", uri := none, has_uri := none,
    kind := some .track, clean_tags := [(.name, "dup")] }

/-- A compilation-like collection with two distinct items of the same name. -/
def collDup : MusifyCollection :=
  { name := "dup", items := [itemDupUnavail, itemDupTodo], compilation := some true }

/-- A non-compilation (album) collection with one unsearched item. -/
def collUnit : MusifyCollection :=
  { name := "c2", items := [itemTodo], compilation := some false,
    kind := some .album, clean_tags := [(.name, "c2")] }

/-- C3 counterexample: an API exception while querying the first item of a
compilation collection aborts the entire `search` call — the item is not
classified unmatched and the sibling item's search result never appears. -/
def ctxErrFirst : SearcherCtx :=
  { ctx0 with query := fun q _ _ => if q = "qa" then .error .apiError else .ok [] }

/-- First item of the C3 fixture collection: its query raises. -/
def itemQa : Item :=
  { name := "qa", uri := none, has_uri := none,
    kind := some .track, clean_tags := [(.name, "qa")] }

/-- Second item of the C3 fixture collection: its query succeeds (empty). -/
def itemQb : Item :=
  { name := "qb", uri := none, has_uri := none,
    kind := some .track, clean_tags := [(.name, "qb")] }

/-- The C3 fixture collection. -/
def collQ : MusifyCollection :=
  { name := "q", items := [itemQa, itemQb], compilation := some true }

/-- A non-empty API response used by several fixtures. -/
def respX : Response := { name := "respX" }

/-- A context whose API returns one result for the query "x" and nothing
otherwise. -/
def ctxQx : SearcherCtx :=
  { ctx0 with query := fun q _ _ => if q = "x" then .ok [respX] else .ok [] }

/-- A configuration whose first field-set is configured empty and whose
second holds the name field. -/
def cfgEmptyFirst : SearchConfig :=
  { match_fields := [], search_fields_1 := [], search_fields_2 := [.name] }

/-- A non-compilation (album) collection whose items are all decided, one of
them explicitly unavailable. -/
def collDecidedAlbum : MusifyCollection :=
  { name := "A", items := [itemReal, itemDupUnavail], compilation := some false,
    kind := some .album, clean_tags := [(.name, "albumA")] }

/-- A context whose API answers every query with one (album) response and
whose matcher never matches. -/
def ctxAlwaysOne : SearcherCtx :=
  { ctx0 with query := fun _ _ _ => .ok [respX] }

/-- First C8 fixture collection. -/
def collDupA : MusifyCollection :=
  { name := "samename", items := [itemTodo], compilation := some true }

/-- Second C8 fixture collection, same name as `collDupA`, different items. -/
def collDupB : MusifyCollection :=
  { name := "samename", items := [itemQb], compilation := some true }

/-- A remote track listed on the C7 fixture album. -/
def trackT : RemoteTrack :=
  { name := "t1", uri := some "spotify:track:t1", has_uri := some true }

/-- The raw C7 fixture album response, before extension. -/
def respB : Response :=
  { name := "albumB", uri := some "spotify:album:b", has_uri := some true,
    total := 1, items := [] }

/-- The C7 fixture album response after its item listing was fetched. -/
def respBExt : RemoteAlbum :=
  { name := "albumB", uri := some "spotify:album:b", has_uri := some true,
    total := 1, items := [trackT] }

/-- The C7 fixture collection: a non-compilation album with one unsearched
item. -/
def collB : MusifyCollection :=
  { name := "B", items := [itemTodo], compilation := some false,
    kind := some .album, clean_tags := [(.name, "albumB")] }

/-- The C7 fixture context: the API returns `respB` for the album query,
`extend_items` fills in the track listing, and the matchers pick the first
candidate. -/
def ctxB : SearcherCtx :=
  { query := fun q _ _ => if q = "albumB" then .ok [respB] else .ok []
    extend_items := fun r => { r with items := [trackT] }
    factory_track := fun r => { name := r.name, uri := r.uri, has_uri := r.has_uri }
    factory_album := id
    match_item := fun _ cands _ _ _ _ => cands.head?
    match_collection := fun _ res _ _ _ _ => res.head? }

/-- `itemTodo` after the title-only match against `respBExt` assigned
`trackT`'s URI. -/
def itemTodoMatched : Item :=
  { name := "todo", uri := some "spotify:track:t1", has_uri := some true,
    kind := some .track, clean_tags := [(.name, "todo")] }

/-- The result record produced for `collDup`. -/
def resDup : ItemSearchResult :=
  { matched := [], unmatched := [], skipped := [itemDupUnavail] }

/-!
### Theorems
-/

theorem SearchStep.refl (ctx : SearcherCtx) (i : Item) : SearchStep ctx i i :=
  ⟨fun _ => rfl, fun _ => Or.inl rfl⟩

theorem setUri_setUri (i : Item) (v w : Option String) :
    setUri (setUri i v) w = setUri i w := rfl

theorem SearchStep.trans {ctx : SearcherCtx} {a b c : Item}
    (h1 : SearchStep ctx a b) (h2 : SearchStep ctx b c) : SearchStep ctx a c := by
  constructor
  · intro ha
    have hb := h1.1 ha
    subst hb
    exact h2.1 ha
  · intro ha
    rcases h1.2 ha with hb | ⟨r, hr, hru, hb⟩
    · subst hb
      exact h2.2 ha
    · subst hb
      by_cases hbu : (setUri a r.uri).has_uri = none
      · rcases h2.2 hbu with hc | ⟨r2, hr2, hru2, hc⟩
        · exact Or.inr ⟨r, hr, hru, hc⟩
        · exact Or.inr ⟨r2, hr2, hru2, by rw [hc, setUri_setUri]⟩
      · have hc := h2.1 hbu
        exact Or.inr ⟨r, hr, hru, hc⟩

theorem forall₂_searchStep_trans {ctx : SearcherCtx} :
    ∀ {l1 l2 l3 : List Item}, List.Forall₂ (SearchStep ctx) l1 l2 →
      List.Forall₂ (SearchStep ctx) l2 l3 → List.Forall₂ (SearchStep ctx) l1 l3
  | _, _, _, .nil, .nil => .nil
  | _, _, _, .cons h1 t1, .cons h2 t2 =>
    .cons (h1.trans h2) (forall₂_searchStep_trans t1 t2)

theorem apply_match_searchStep (ctx : SearcherCtx) (item : Item)
    (m : Option RemoteTrack) (hnone : item.has_uri = none)
    (hm : ∀ r, m = some r → MatcherOutput ctx r) :
    SearchStep ctx item (apply_match item m) := by
  match m with
  | none => exact SearchStep.refl ctx item
  | some r =>
    simp only [apply_match]
    by_cases hr : truthy r.has_uri = true
    · rw [if_pos hr]
      exact ⟨fun h => absurd hnone h, fun _ => Or.inr ⟨r, hm r rfl, hr, rfl⟩⟩
    · rw [if_neg hr]
      exact SearchStep.refl ctx item

theorem forall₂_searchStep_refl (ctx : SearcherCtx) :
    ∀ l : List Item, List.Forall₂ (SearchStep ctx) l l
  | [] => .nil
  | _ :: rest => .cons (SearchStep.refl ctx _) (forall₂_searchStep_refl ctx rest)

theorem get_item_match_ok (ctx : SearcherCtx) (item : Item)
    (match_on : Option (List TagField)) (results : Option (List RemoteTrack))
    {it : Item} {m : Option RemoteTrack} {log : List String}
    (h : get_item_match ctx item match_on results = .ok ((it, m), log)) :
    it = item ∧ ∀ r, m = some r → MatcherOutput ctx r := by
  unfold get_item_match at h
  split at h
  · exact absurd h (by simp)
  · simp only [] at h
    split at h
    · split at h
      · exact absurd h (by simp)
      · simp only [Except.ok.injEq, Prod.mk.injEq] at h
        refine ⟨h.1.1.symm, fun r hr => ?_⟩
        rw [← h.1.2] at hr
        exact ⟨_, _, _, _, _, _, hr⟩
    · simp only [Except.ok.injEq, Prod.mk.injEq] at h
      refine ⟨h.1.1.symm, fun r hr => ?_⟩
      rw [← h.1.2] at hr
      split at hr
      · exact absurd hr (by simp)
      · exact ⟨_, _, _, _, _, _, hr⟩

theorem search_items_go_searchStep (ctx : SearcherCtx) :
    ∀ (items items2 : List Item) (log : List String),
      search_items_go ctx items = .ok (items2, log) →
      List.Forall₂ (SearchStep ctx) items items2 := by
  intro items
  induction items with
  | nil =>
    intro items2 log h
    simp only [search_items_go, Except.ok.injEq, Prod.mk.injEq] at h
    rw [← h.1]
    exact .nil
  | cons item rest ih =>
    intro items2 log h
    rw [search_items_go] at h
    by_cases hnone : item.has_uri = none
    · rw [if_pos hnone] at h
      split at h
      · exact absurd h (by simp)
      · rename_i it m log1 hg
        split at h
        · exact absurd h (by simp)
        · rename_i rest2 log2 hrest
          simp only [Except.ok.injEq, Prod.mk.injEq] at h
          obtain ⟨hit, hm⟩ := get_item_match_ok ctx item none none hg
          rw [← h.1, hit]
          exact .cons (apply_match_searchStep ctx item _ hnone hm)
            (ih rest2 log2 hrest)
    · rw [if_neg hnone] at h
      split at h
      · exact absurd h (by simp)
      · rename_i rest2 log2 hrest
        simp only [Except.ok.injEq, Prod.mk.injEq] at h
        rw [← h.1]
        exact .cons (SearchStep.refl ctx item) (ih rest2 log2 hrest)

theorem title_match_step_searchStep (ctx : SearcherCtx) (result : RemoteAlbum)
    (item : Item) {it2 : Item} (h : title_match_step ctx result item = .ok it2) :
    SearchStep ctx item it2 := by
  rw [title_match_step] at h
  by_cases hnone : item.has_uri = none
  · rw [if_pos hnone] at h
    split at h
    · exact absurd h (by simp)
    · rename_i it m log hg
      simp only [Except.ok.injEq] at h
      obtain ⟨hit, hm⟩ := get_item_match_ok ctx item _ _ hg
      rw [← h, hit]
      exact apply_match_searchStep ctx item _ hnone hm
  · rw [if_neg hnone] at h
    simp only [Except.ok.injEq] at h
    rw [← h]
    exact SearchStep.refl ctx item

theorem title_pass_searchStep (ctx : SearcherCtx) (result : RemoteAlbum) :
    ∀ (items items2 : List Item), title_pass ctx result items = .ok items2 →
      List.Forall₂ (SearchStep ctx) items items2 := by
  intro items
  induction items with
  | nil =>
    intro items2 h
    simp only [title_pass, Except.ok.injEq] at h
    rw [← h]
    exact .nil
  | cons item rest ih =>
    intro items2 h
    rw [title_pass] at h
    split at h
    · exact absurd h (by simp)
    · rename_i it2 hstep
      split at h
      · exact absurd h (by simp)
      · rename_i rest2 hrest
        simp only [Except.ok.injEq] at h
        rw [← h]
        exact .cons (title_match_step_searchStep ctx result item hstep) (ih rest2 hrest)

theorem search_collection_unit_searchStep (ctx : SearcherCtx)
    (collection : MusifyCollection) {items2 : List Item} {log : List String}
    (h : search_collection_unit ctx collection = .ok (items2, log)) :
    List.Forall₂ (SearchStep ctx) collection.items items2 := by
  rw [search_collection_unit] at h
  split at h
  · simp only [Except.ok.injEq, Prod.mk.injEq] at h
    rw [← h.1]
    exact forall₂_searchStep_refl ctx collection.items
  · split at h
    · exact absurd h (by simp)
    · simp only [] at h
      split at h
      · exact absurd h (by simp)
      · rename_i results log1 hres
        split at h
        · simp only [Except.ok.injEq, Prod.mk.injEq] at h
          rw [← h.1]
          exact forall₂_searchStep_refl ctx collection.items
        · rename_i result hmatch
          split at h
          · exact absurd h (by simp)
          · rename_i items3 hpass
            simp only [Except.ok.injEq, Prod.mk.injEq] at h
            rw [← h.1]
            exact title_pass_searchStep ctx result collection.items items3 hpass

theorem search_collection_items_searchStep (ctx : SearcherCtx)
    (collection : MusifyCollection) {items2 : List Item} {log : List String}
    (h : search_collection_items ctx collection = .ok (items2, log)) :
    List.Forall₂ (SearchStep ctx) collection.items items2 := by
  rw [search_collection_items] at h
  split at h
  · split at h
    · exact absurd h (by simp)
    · rename_i items1 log1 hunit
      simp only [] at h
      split at h
      · split at h
        · exact absurd h (by simp)
        · rename_i items3 log2 hitems
          simp only [Except.ok.injEq, Prod.mk.injEq] at h
          rw [← h.1]
          exact forall₂_searchStep_trans
            (search_collection_unit_searchStep ctx collection hunit)
            (search_items_go_searchStep ctx items1 items3 log2 hitems)
      · simp only [Except.ok.injEq, Prod.mk.injEq] at h
        rw [← h.1]
        exact search_collection_unit_searchStep ctx collection hunit
  · exact search_items_go_searchStep ctx collection.items items2 log h

theorem itemEq_self (i : Item) : itemEq i i = true := by
  rw [itemEq]
  split
  · simp
  · simp

theorem memEq_of_mem {i : Item} {l : List Item} (h : i ∈ l) : memEq i l = true :=
  List.any_eq_true.mpr ⟨i, h, itemEq_self i⟩

/-- **C10**: for every item whose `has_uri` is not `None` at the moment the
search of its collection starts, the item's `uri` and `has_uri` fields are
unchanged when the search returns (the item itself is untouched); an item
filtered to `has_uri is None` is either untouched or assigned the URI of a
matcher result whose `has_uri` is truthy (a match carrying a real URI).
`search_collection_items` is the full item-state evolution performed by
`RemoteItemSearcher.search` for one collection. -/
theorem search_frame_effect (ctx : SearcherCtx) (collection : MusifyCollection)
    (items2 : List Item) (log : List String)
    (h : search_collection_items ctx collection = .ok (items2, log)) :
    List.Forall₂ (fun i i2 =>
      (i.has_uri ≠ none → i2 = i) ∧
      (i.has_uri = none → i2 = i ∨ ∃ r, MatcherOutput ctx r ∧
        truthy r.has_uri = true ∧ i2 = setUri i r.uri))
      collection.items items2 :=
  search_collection_items_searchStep ctx collection h

/-- Witness for C10 at a concrete input: a collection with one decided and
one undecided item, searched against an API with no results. -/
theorem search_frame_effect_witness :
    List.Forall₂ (fun i i2 =>
      (i.has_uri ≠ none → i2 = i) ∧
      (i.has_uri = none → i2 = i ∨ ∃ r, MatcherOutput ctx0 r ∧
        truthy r.has_uri = true ∧ i2 = setUri i r.uri))
      collMixed.items [itemReal, itemTodo] :=
  search_frame_effect ctx0 collMixed [itemReal, itemTodo]
    ["todo", "todo", "todo"] (by decide)

/-- C9: `Item.__eq__` is not structural: when either item's `has_uri` is
truthy, the items are equal iff both `has_uri` flags and both `uri` values
agree; when neither is truthy, equality is name equality — so an unsearched
or unavailable item compares equal to any same-named one, which decides the
`item not in skipped` membership tests used by `_search_collection`. -/
theorem item_eq_semantics (a b : Item) :
    ((truthy a.has_uri = true ∨ truthy b.has_uri = true) →
      (itemEq a b = true ↔ a.has_uri = b.has_uri ∧ a.uri = b.uri)) ∧
    (truthy a.has_uri = false → truthy b.has_uri = false →
      ((itemEq a b = true ↔ a.name = b.name) ∧
        (∀ seq, b ∈ seq → a.name = b.name → memEq a seq = true))) := by
  refine ⟨fun h => ?_, fun ha hb => ?_⟩
  · have hc : (truthy a.has_uri || truthy b.has_uri) = true := by
      rcases h with h | h <;> simp [h]
    simp [itemEq, hc]
  · have hc : (truthy a.has_uri || truthy b.has_uri) = false := by simp [ha, hb]
    constructor
    · simp [itemEq, hc]
    · intro seq hmem hn
      have hab : itemEq a b = true := by simp [itemEq, hc, hn]
      exact List.any_eq_true.mpr ⟨b, hmem, hab⟩

/-- Witness for C9: the two distinct fixtures `itemDupTodo` (unsearched) and
`itemDupUnavail` (explicitly unavailable) share the name "dup" and compare
equal, so the one occurs in a membership test over a tuple holding the
other. -/
theorem item_eq_semantics_witness :
    itemEq itemDupTodo itemDupUnavail = true ∧
    itemDupTodo ≠ itemDupUnavail ∧
    memEq itemDupTodo [itemDupUnavail] = true := by
  refine ⟨?_, by decide, ?_⟩
  · exact ((item_eq_semantics itemDupTodo itemDupUnavail).2 (by decide)
      (by decide)).1.mpr rfl
  · exact ((item_eq_semantics itemDupTodo itemDupUnavail).2 (by decide)
      (by decide)).2 [itemDupUnavail] (by simp) rfl

/-- C2 (the unit-search half fails): when the query cascade of an album-level
(unit) search exhausts all configured field-sets with zero results,
`_get_results` returns `None` and `_search_collection_unit` then iterates
over it (`for response in responses`), raising `TypeError` — the exception
aborts the batch instead of the collection being classified unmatched.  The
item-level half of the claim does hold: the same exhausted cascade during
`_search_items` yields an unmatched classification with no exception, as the
second conjunct shows on `collMixed`. -/
theorem unit_no_results_type_error :
    search ctx0 [collUnit] = .error .typeError ∧
    search_collection_unit ctx0 collUnit = .error .typeError ∧
    get_results ctx0 collUnit.clean_tags .album (search_settings .album)
      = .ok (none, ["c2", "c2"]) ∧
    search ctx0 [collMixed]
      = .ok ([("mixed",
          { matched := [], unmatched := [itemTodo], skipped := [itemReal] })],
        ["todo", "todo", "todo"]) := by
  decide

/-- C3 counterexample: the per-item exception is not caught — `search`
returns the propagated error instead of a result classifying `itemQa` as
unmatched with `itemQb`'s search unaffected. -/
theorem item_error_aborts_batch_cex :
    search ctxErrFirst [collQ] = .error .apiError := by decide

/-- C3 as amended: an exception raised while querying an item during
item-level search propagates out of `_search_items` (there is no try/except
around the per-item tasks), aborting the remaining batch. -/
theorem item_error_propagates (ctx : SearcherCtx) (item : Item)
    (rest : List Item) (e : MusifyError) (hnone : item.has_uri = none)
    (herr : get_item_match ctx item none none = .error e) :
    search_items_go ctx (item :: rest) = .error e := by
  rw [search_items_go, if_pos hnone, herr]

/-- Witness for the amended C3 at a concrete input. -/
theorem item_error_propagates_witness :
    search_items_go ctxErrFirst [itemQa, itemQb] = .error .apiError :=
  item_error_propagates ctxErrFirst itemQa [itemQb] .apiError (by decide) (by decide)

/-- C4 counterexample: with field-set 1 configured empty, `_get_results`
still issues a query for it — the empty query string "" built from no
attributes — before moving on to field-set 2; the claim's "skipping
unset/empty field-sets" predicts a single query ["x"], but two queries
["", "x"] are issued. -/
theorem cascade_empty_fieldset_cex :
    cfgEmptyFirst.search_fields_1 = [] ∧
    get_results ctxQx [(.name, "x")] .track cfgEmptyFirst
      = .ok (some [respX], ["", "x"]) := by decide

/-- C4 as amended: queries are issued for the configured field-sets strictly
in order; field-sets 2 and 3 are skipped when unset/empty, but field-set 1
is always queried, even when empty; the cascade stops at the first query
returning non-empty results and returns those results; hence for an item
with three configured field-sets and a query function returning empty
results for every query, the query function is called exactly 3 times and
the item ends unmatched (it is returned unchanged, `has_uri` still `None`). -/
theorem cascade_order (ctx : SearcherCtx) (tags : List (TagField × String))
    (kind : RemoteObjectType) (s : SearchConfig) :
    (∀ r1 q1, execute_query ctx tags kind s s.search_fields_1 = (.ok r1, q1) →
      r1 ≠ [] → get_results ctx tags kind s = .ok (some r1, [q1])) ∧
    (∀ q1 r2 q2, execute_query ctx tags kind s s.search_fields_1 = (.ok [], q1) →
      s.search_fields_2 ≠ [] →
      execute_query ctx tags kind s s.search_fields_2 = (.ok r2, q2) →
      r2 ≠ [] → get_results ctx tags kind s = .ok (some r2, [q1, q2])) ∧
    (∀ q1, execute_query ctx tags kind s s.search_fields_1 = (.ok [], q1) →
      s.search_fields_2 = [] → s.search_fields_3 = [] →
      get_results ctx tags kind s = .ok (none, [q1])) ∧
    (s.search_fields_2 ≠ [] → s.search_fields_3 ≠ [] →
      (∀ q, ctx.query q kind s.result_count = .ok []) →
      ∃ q1 q2 q3, get_results ctx tags kind s = .ok (none, [q1, q2, q3])) ∧
    (∀ item : Item, item.kind = some .track → item.has_uri = none →
      (∀ q k n, ctx.query q k n = .ok []) →
      (∀ it mo mi ma ka, ctx.match_item it [] mo mi ma ka = none) →
      ∃ q1 q2 q3, search_items_go ctx [item] = .ok ([item], [q1, q2, q3])) := by
  have hstop : ∀ r1 q1, execute_query ctx tags kind s s.search_fields_1 = (.ok r1, q1) →
      r1 ≠ [] → get_results ctx tags kind s = .ok (some r1, [q1]) := by
    intro r1 q1 h1 hne
    unfold get_results
    rw [h1]
    simp [hne]
  refine ⟨hstop, ?_, ?_, ?_, ?_⟩
  · intro q1 r2 q2 h1 h2 h3 hne
    unfold get_results
    rw [h1]
    simp only [ne_eq, not_true_eq_false, if_false]
    rw [if_pos h2, h3]
    simp [hne]
  · intro q1 h1 h2 h3
    unfold get_results
    rw [h1]
    simp [h2, h3]
  · intro h2 h3 hq
    refine ⟨joinTruthy (List.map (tagGet tags) s.search_fields_1),
      joinTruthy (List.map (tagGet tags) s.search_fields_2),
      joinTruthy (List.map (tagGet tags) s.search_fields_3), ?_⟩
    unfold get_results execute_query
    simp [hq, h2, h3]
  · intro item hk hnone hq hm
    refine ⟨joinTruthy (List.map (tagGet item.clean_tags)
        (search_settings .track).search_fields_1),
      joinTruthy (List.map (tagGet item.clean_tags)
        (search_settings .track).search_fields_2),
      joinTruthy (List.map (tagGet item.clean_tags)
        (search_settings .track).search_fields_3), ?_⟩
    rw [search_items_go, if_pos hnone]
    rw [get_item_match, hk]
    simp only []
    have hg : get_results ctx item.clean_tags .track (search_settings .track)
        = .ok (none,
          [joinTruthy (List.map (tagGet item.clean_tags)
              (search_settings .track).search_fields_1),
            joinTruthy (List.map (tagGet item.clean_tags)
              (search_settings .track).search_fields_2),
            joinTruthy (List.map (tagGet item.clean_tags)
              (search_settings .track).search_fields_3)]) := by
      unfold get_results execute_query
      simp only [hq]
      simp [search_settings]
    rw [hg]
    simp only [Option.getD_none, List.map_nil, search_items_go]
    rw [hm]
    simp [apply_match]

/-- Witness for the amended C4: the three-field-set TRACK configuration
against an API with no results queries exactly three times and leaves the
item untouched; and a first field-set returning results stops the cascade
after one query. -/
theorem cascade_order_witness :
    (∃ q1 q2 q3, search_items_go ctx0 [itemTodo] = .ok ([itemTodo], [q1, q2, q3])) ∧
    get_results ctxQx [(.name, "x")] .track
      { match_fields := [], search_fields_1 := [.name] }
      = .ok (some [respX], ["x"]) :=
  ⟨(cascade_order ctx0 [] .track (search_settings .track)).2.2.2.2 itemTodo rfl rfl
      (fun _ _ _ => rfl) (fun _ _ _ _ _ => rfl),
    (cascade_order ctxQx [(.name, "x")] .track
      { match_fields := [], search_fields_1 := [.name] }).1 [respX] "x"
      (by decide) (by decide)⟩

theorem search_items_go_all_decided (ctx : SearcherCtx) :
    ∀ items : List Item, (∀ i ∈ items, i.has_uri ≠ none) →
      search_items_go ctx items = .ok (items, []) := by
  intro items
  induction items with
  | nil => intro _; rfl
  | cons item rest ih =>
    intro h
    rw [search_items_go, if_neg (h item (List.mem_cons_self item rest)),
      ih (fun i hi => h i (List.mem_cons_of_mem item hi))]

/-- C5 as amended: a collection in which every item already carries a real
URI or an explicit unavailable marker is classified all-`skipped` with zero
queries issued, provided the collection is compilation-like or every item's
`has_uri` is `True`; the counterexample shows the two ways the claim as
stated fails (an album query is issued for a non-compilation collection
holding an explicitly-unavailable item, and a call whose collections are all
fully decided returns an empty mapping with no `skipped` classification at
all). -/
theorem all_decided_skipped (ctx : SearcherCtx) (c : MusifyCollection)
    (hdec : ∀ i ∈ c.items, i.has_uri ≠ none)
    (hclass : c.compilation.getD true = true ∨ ∀ i ∈ c.items, truthy i.has_uri = true) :
    search_collection ctx c
      = .ok ({ matched := [], unmatched := [], skipped := c.items }, []) := by
  have hfilter : c.items.filter (fun i => i.has_uri != none) = c.items :=
    List.filter_eq_self.mpr (fun i hi => bne_iff_ne.mpr (hdec i hi))
  have hitems : search_collection_items ctx c = .ok (c.items, []) := by
    rw [search_collection_items]
    by_cases hc : (c.compilation.getD true) = false
    · rw [if_pos hc]
      have hall : ∀ i ∈ c.items, truthy i.has_uri = true := by
        rcases hclass with h | h
        · rw [h] at hc; exact absurd hc (by simp)
        · exact h
      have hunit : search_collection_unit ctx c = .ok (c.items, []) := by
        rw [search_collection_unit, if_pos (List.all_eq_true.mpr hall)]
      rw [hunit]
      have hmiss : c.items.filter (fun i => i.has_uri == none) = [] :=
        List.filter_eq_nil_iff.mpr (fun i hi => by simp [hdec i hi])
      simp [hmiss]
    · rw [if_neg hc]
      exact search_items_go_all_decided ctx c.items hdec
  rw [search_collection, hitems]
  simp only []
  rw [hfilter]
  have hm0 : c.items.filter
      (fun i => truthy i.has_uri && !(memEq i c.items)) = [] :=
    List.filter_eq_nil_iff.mpr (fun i hi => by simp [memEq_of_mem hi])
  have hu0 : c.items.filter
      (fun i => i.has_uri == none && !(memEq i c.items)) = [] :=
    List.filter_eq_nil_iff.mpr (fun i hi => by simp [memEq_of_mem hi])
  rw [hm0, hu0]

/-- Witness for the amended C5 at a concrete input: a compilation-like
collection whose only item already has a real URI. -/
theorem all_decided_skipped_witness :
    search_collection ctx0
      { name := "w", items := [itemReal], compilation := some true }
      = .ok ({ matched := [], unmatched := [], skipped := [itemReal] }, []) :=
  all_decided_skipped ctx0
    { name := "w", items := [itemReal], compilation := some true }
    (by decide) (Or.inl rfl)

/-- C5 counterexample: (1) all items of `collDecidedAlbum` are decided
before the call, yet (2) searching it issues an album-level unit query (the
query log of the collection is ["albumA"], not []), because
`_search_collection_unit` only skips when every `has_uri` is truthy and an
explicit `False` is falsy; and (3) a `search` call in which every collection
is fully decided returns `{}` — no entry classifies the items as skipped. -/
theorem all_decided_skipped_cex :
    (∀ i ∈ collDecidedAlbum.items, i.has_uri ≠ none) ∧
    search_collection ctxAlwaysOne collDecidedAlbum
      = .ok
        ({ matched := [], unmatched := [], skipped := [itemReal, itemDupUnavail] },
          ["albumA"]) ∧
    search ctxAlwaysOne [collDecidedAlbum] = .ok ([], []) := by decide

/-- C8: `search` keys its returned mapping by collection name: two distinct
input collections with the same name yield exactly one mapping entry for
that name, holding the `ItemSearchResult` of the later collection only (the
`dict(...)` construction lets later values for a duplicated key overwrite
earlier ones); the earlier collection's result is absent from the output. -/
theorem search_dict_name_collision (ctx : SearcherCtx) (c1 c2 : MusifyCollection)
    (r1 r2 : ItemSearchResult) (l1 l2 : List String)
    (hname : c1.name = c2.name)
    (hsome : ∃ i, (i ∈ c1.items ∨ i ∈ c2.items) ∧ i.has_uri = none)
    (h1 : search_collection ctx c1 = .ok (r1, l1))
    (h2 : search_collection ctx c2 = .ok (r2, l2)) :
    search ctx [c1, c2] = .ok ([(c1.name, r2)], l1 ++ l2) ∧
    (r1 ≠ r2 →
      (c1.name, r1) ∉ ([(c1.name, r2)] : List (String × ItemSearchResult))) := by
  constructor
  · rw [search]
    have hall : ¬ (([c1, c2].all
        (fun c => c.items.all (fun item => item.has_uri != none))) = true) := by
      intro hforall
      obtain ⟨i, hi, hnone⟩ := hsome
      rw [List.all_eq_true] at hforall
      rcases hi with hi | hi
      · have := List.all_eq_true.mp (hforall c1 (by simp)) i hi
        rw [hnone] at this
        exact absurd this (by simp)
      · have := List.all_eq_true.mp (hforall c2 (by simp)) i hi
        rw [hnone] at this
        exact absurd this (by simp)
    rw [if_neg hall]
    have hgo : search_go ctx [c1, c2] = .ok ([(c1.name, r1), (c2.name, r2)], l1 ++ l2) := by
      rw [search_go, h1, search_go, h2, search_go]
      simp
    rw [hgo]
    simp only [dict_of_pairs, List.foldl, dict_insert, List.any_nil,
      Bool.false_eq_true, if_false, List.nil_append, List.any_cons,
      List.any_nil, Bool.or_false]
    rw [hname]
    simp
  · intro hne
    simp [hne]

/-- Witness for C8 at a concrete input: two same-named collections produce a
single entry holding the second collection's result. -/
theorem search_dict_name_collision_witness :
    search ctx0 [collDupA, collDupB]
      = .ok
        ([("samename",
          { matched := [], unmatched := [itemQb], skipped := [] })],
          ["todo", "todo", "todo"] ++ ["qb", "qb", "qb"]) ∧
    (({ matched := [], unmatched := [itemTodo], skipped := [] } : ItemSearchResult)
        ≠ { matched := [], unmatched := [itemQb], skipped := [] } →
      ("samename", ({ matched := [], unmatched := [itemTodo], skipped := [] } :
          ItemSearchResult))
        ∉ ([("samename",
            ({ matched := [], unmatched := [itemQb], skipped := [] } :
              ItemSearchResult))] : List (String × ItemSearchResult))) :=
  search_dict_name_collision ctx0 collDupA collDupB
    { matched := [], unmatched := [itemTodo], skipped := [] }
    { matched := [], unmatched := [itemQb], skipped := [] }
    ["todo", "todo", "todo"] ["qb", "qb", "qb"] rfl
    ⟨itemTodo, Or.inl (by simp [collDupA]), rfl⟩ (by decide) (by decide)

theorem match_scan_fst {α : Type} (score : α → ℚ) (max_score : ℚ) :
    ∀ (l : List α) (best : Option (α × ℚ)) (count : Nat) (b2 : α) (bs2 : ℚ),
      (match_scan score max_score l best count).1 = some (b2, bs2) →
      best = some (b2, bs2) ∨ (b2 ∈ l ∧ bs2 = score b2) := by
  intro l
  induction l with
  | nil =>
    intro best count b2 bs2 h
    exact Or.inl h
  | cons c rest ih =>
    intro best count b2 bs2 h
    rw [match_scan.eq_def] at h
    simp only [] at h
    split at h
    · simp only [Prod.fst, Option.some.injEq, Prod.mk.injEq] at h
      obtain ⟨h1, h2⟩ := h
      subst h1
      subst h2
      exact Or.inr ⟨List.mem_cons_self _ _, rfl⟩
    · rcases ih _ _ _ _ h with hbest | ⟨hmem, hbs⟩
      · match hb : best with
        | none =>
          simp only [Option.some.injEq, Prod.mk.injEq] at hbest
          obtain ⟨h1, h2⟩ := hbest
          subst h1
          subst h2
          exact Or.inr ⟨List.mem_cons_self _ _, rfl⟩
        | some (b0, bs0) =>
          simp only [] at hbest
          split at hbest
          · simp only [Option.some.injEq, Prod.mk.injEq] at hbest
            obtain ⟨h1, h2⟩ := hbest
            subst h1
            subst h2
            exact Or.inr ⟨List.mem_cons_self _ _, rfl⟩
          · exact Or.inl hbest
      · exact Or.inr ⟨List.mem_cons_of_mem c hmem, hbs⟩

theorem match_scan_shortcircuit {α : Type} (score : α → ℚ) (max_score : ℚ) :
    ∀ (pre : List α) (c : α) (post : List α) (best : Option (α × ℚ)) (count : Nat),
      (∀ b ∈ pre, score b < max_score) → max_score ≤ score c →
      (∀ b bs, best = some (b, bs) → bs < max_score) →
      match_scan score max_score (pre ++ c :: post) best count
        = (some (c, score c), count + (pre.length + 1)) := by
  intro pre
  induction pre with
  | nil =>
    intro c post best count _ hc _
    rw [List.nil_append, match_scan.eq_def]
    simp [hc]
  | cons p pre ih =>
    intro c post best count hpre hc hbest
    rw [List.cons_append, match_scan.eq_def]
    simp only []
    rw [if_neg (not_le.mpr (hpre p (List.mem_cons_self p pre)))]
    rw [ih c post _ (count + 1) (fun b hb => hpre b (List.mem_cons_of_mem p hb)) hc ?_]
    · have : count + 1 + (pre.length + 1) = count + ((p :: pre).length + 1) := by
        simp [List.length_cons]
        omega
      rw [this]
    · intro b bs hb
      match hb0 : best with
      | none =>
        simp only [Option.some.injEq, Prod.mk.injEq] at hb
        rw [← hb.2]
        exact hpre p (List.mem_cons_self p pre)
      | some (b0, bs0) =>
        simp only [] at hb
        split at hb
        · simp only [Option.some.injEq, Prod.mk.injEq] at hb
          rw [← hb.2]
          exact hpre p (List.mem_cons_self p pre)
        · simp only [Option.some.injEq, Prod.mk.injEq] at hb
          rw [← hb.2]
          exact hbest b0 bs0 rfl

/-- C6 (spec-modelled `ScoringMatcher.match`): `match()` returns `None`
whenever every candidate's total score is strictly below `min_score`
(including the empty candidate list), and as soon as a candidate scores at
least `max_score` the scan stops — no subsequent candidate is evaluated (the
instrumentation counter equals the position of the short-circuiting
candidate) — and that candidate is returned. -/
theorem score_match_thresholds {α : Type} (score : α → ℚ) (is_karaoke : α → Bool)
    (source_karaoke allow_karaoke : Bool) (min_score max_score : ℚ)
    (candidates : List α) :
    ((∀ c ∈ candidates, score c < min_score) →
      score_match score is_karaoke source_karaoke allow_karaoke
        min_score max_score candidates = none) ∧
    (∀ pre c post,
      (if allow_karaoke || source_karaoke then candidates
        else candidates.filter (fun x => !(is_karaoke x))) = pre ++ c :: post →
      (∀ b ∈ pre, score b < max_score) → max_score ≤ score c →
      min_score ≤ max_score →
      score_match_counted score is_karaoke source_karaoke allow_karaoke
        min_score max_score candidates = (some c, pre.length + 1)) := by
  constructor
  · intro hall
    unfold score_match score_match_counted
    simp only []
    have hsub : ∀ x, x ∈ (if allow_karaoke || source_karaoke then candidates
        else candidates.filter (fun y => !(is_karaoke y))) → x ∈ candidates := by
      intro x hx
      split at hx
      · exact hx
      · exact (List.mem_filter.mp hx).1
    match hscan : match_scan score max_score
        (if allow_karaoke || source_karaoke then candidates
          else candidates.filter (fun y => !(is_karaoke y))) none 0 with
    | (some (b, bs), count) =>
      rcases match_scan_fst score max_score _ none 0 b bs (by rw [hscan]) with
        h | ⟨hmem, hbs⟩
      · exact absurd h (by simp)
      · have hlt : bs < min_score := by
          rw [hbs]
          exact hall b (hsub b hmem)
        simp [not_le.mpr hlt]
    | (none, count) => rfl
  · intro pre c post heq hpre hc hminmax
    unfold score_match_counted
    simp only []
    rw [heq, match_scan_shortcircuit score max_score pre c post none 0 hpre hc
      (by intro b bs h; exact absurd h (by simp))]
    simp [le_trans hminmax hc]

/-- Witness for C6 at concrete inputs: a single candidate scoring below
`min_score` yields `None`; in a three-candidate list whose second candidate
reaches `max_score`, the second candidate is returned after exactly two
score evaluations (the third is never evaluated). -/
theorem score_match_thresholds_witness :
    score_match (fun n : Nat => (n : ℚ)) (fun _ => false) false false 1 3 [0] = none ∧
    score_match_counted (fun n : Nat => (n : ℚ)) (fun _ => false) false true 1 3
      [0, 5, 1] = (some 5, 2) := by
  constructor
  · refine (score_match_thresholds (fun n : Nat => (n : ℚ)) (fun _ => false)
      false false 1 3 [0]).1 ?_
    intro c hc
    rw [List.mem_singleton.mp hc]
    norm_num
  · refine (score_match_thresholds (fun n : Nat => (n : ℚ)) (fun _ => false)
      false true 1 3 [0, 5, 1]).2 [0] 5 [1] (by norm_num) ?_ (by norm_num) (by norm_num)
    intro b hb
    rw [List.mem_singleton.mp hb]
    norm_num

theorem insert_by_key_perm {α : Type} (key : α → Nat) (x : α) :
    ∀ l : List α, List.Perm (insert_by_key key x l) (x :: l)
  | [] => List.Perm.refl _
  | y :: ys => by
    rw [insert_by_key]
    split
    · exact List.Perm.refl _
    · exact ((insert_by_key_perm key x ys).cons y).trans (List.Perm.swap x y ys)

theorem sort_by_key_perm {α : Type} (key : α → Nat) :
    ∀ l : List α, List.Perm (sort_by_key key l) l
  | [] => List.Perm.refl _
  | x :: xs =>
    (insert_by_key_perm key x (sort_by_key key xs)).trans
      ((sort_by_key_perm key xs).cons x)

/-- C7: during unit search of a non-compilation collection, every candidate
response — and therefore the matched remote collection's response — has its
full item listing fetched via `extend_items` before matching (the matched
album is the factory image of an extended response), and on an album-level
match each constituent local item still lacking a URI is matched against the
matched album's own items (`result.items`) with `match_on=[Tag.TITLE]` —
title only.  The matcher is abstract here; `hmem` states it returns one of
its candidates. -/
theorem unit_search_title_only (ctx : SearcherCtx) (collection : MusifyCollection)
    (kind : RemoteObjectType) (raws : List Response) (log : List String)
    (result : RemoteAlbum)
    (hmem : ∀ c res mf mi ma ka a, ctx.match_collection c res mf mi ma ka = some a →
      a ∈ res)
    (hkind : collection.kind = some kind)
    (hget : get_results ctx collection.clean_tags kind (search_settings kind)
      = .ok (some raws, log))
    (hmatch : ctx.match_collection collection
      (sort_by_key (sort_key collection) ((raws.map ctx.extend_items).map ctx.factory_album))
      (search_settings kind).match_fields (search_settings kind).min_score
      (search_settings kind).max_score (search_settings kind).allow_karaoke
      = some result) :
    (∃ raw ∈ raws, result = ctx.factory_album (ctx.extend_items raw)) ∧
    (∀ items2, ¬ ((collection.items.all (fun item => truthy item.has_uri)) = true) →
      title_pass ctx result collection.items = .ok items2 →
      search_collection_unit ctx collection = .ok (items2, log)) ∧
    (∀ item k2, item.has_uri = none → item.kind = some k2 →
      title_match_step ctx result item = .ok (apply_match item
        (if result.items.isEmpty then none
         else ctx.match_item item result.items [TagField.title]
           (search_settings k2).min_score (search_settings k2).max_score
           (search_settings k2).allow_karaoke))) := by
  refine ⟨?_, ?_, ?_⟩
  · have hres := hmem _ _ _ _ _ _ _ hmatch
    have hres2 : result ∈ (raws.map ctx.extend_items).map ctx.factory_album :=
      (sort_by_key_perm (sort_key collection)
        ((raws.map ctx.extend_items).map ctx.factory_album)).subset hres
    simp only [List.map_map, List.mem_map, Function.comp] at hres2
    obtain ⟨raw, hraw, hr⟩ := hres2
    exact ⟨raw, hraw, hr.symm⟩
  · intro items2 hall hpass
    rw [search_collection_unit, if_neg hall, hkind]
    simp only []
    have hunit : unit_results ctx collection kind (search_settings kind)
        = .ok (sort_by_key (sort_key collection)
          ((raws.map ctx.extend_items).map ctx.factory_album), log) := by
      rw [unit_results, unit_responses, hget]
    rw [hunit]
    simp only []
    rw [hmatch]
    simp only []
    rw [hpass]
  · intro item k2 hnone hk2
    rw [title_match_step, if_pos hnone, get_item_match, hk2]
    simp only [Option.getD_some]

/-- Witness for C7 at a concrete input: the matched album is the extended
response, and the unit search resolves the collection's missing item by
title against the album's own listing. -/
theorem unit_search_title_only_witness :
    (∃ raw ∈ [respB], respBExt = ctxB.factory_album (ctxB.extend_items raw)) ∧
    search_collection_unit ctxB collB = .ok ([itemTodoMatched], ["albumB"]) :=
  ⟨(unit_search_title_only ctxB collB .album [respB] ["albumB"] respBExt
      (fun _ _ _ _ _ _ _ h => List.mem_of_mem_head? h) rfl (by decide) (by decide)).1,
    (unit_search_title_only ctxB collB .album [respB] ["albumB"] respBExt
      (fun _ _ _ _ _ _ _ h => List.mem_of_mem_head? h) rfl (by decide) (by decide)).2.1
      [itemTodoMatched] (by decide) (by decide)⟩

theorem forall₂_and_mem {α β : Type} {R Q : α → β → Prop} :
    ∀ {l1 : List α} {l2 : List β}, List.Forall₂ R l1 l2 →
      (∀ a b, a ∈ l1 → R a b → Q a b) → List.Forall₂ Q l1 l2
  | _, _, .nil, _ => .nil
  | _, _, .cons h t, himp =>
    .cons (himp _ _ (List.mem_cons_self _ _) h)
      (forall₂_and_mem t (fun a b ha hr => himp a b (List.mem_cons_of_mem _ ha) hr))

theorem filter_partition_perm (pm pu ps : Item → Bool) :
    ∀ {l1 l2 : List Item},
      List.Forall₂ (fun i i2 =>
        (i2 = i ∧ ps i = true ∧ pm i2 = false ∧ pu i2 = false) ∨
        (ps i = false ∧
          ((pm i2 = true ∧ pu i2 = false) ∨ (pm i2 = false ∧ pu i2 = true))))
        l1 l2 →
      List.Perm (l2.filter pm ++ l2.filter pu ++ l1.filter ps) l2 := by
  intro l1 l2 h
  induction h with
  | nil => simp
  | @cons a b l1t l2t hq ht ih =>
    rcases hq with ⟨hb, hps, hpm, hpu⟩ | ⟨hps, hrest⟩
    · subst hb
      simp only [List.filter_cons, hps, hpm, hpu, if_true, if_false,
        Bool.false_eq_true, ite_false, ite_true]
      exact (List.perm_middle).trans (ih.cons b)
    · rcases hrest with ⟨hpm, hpu⟩ | ⟨hpm, hpu⟩
      · simp only [List.filter_cons, hps, hpm, hpu, Bool.false_eq_true,
          ite_false, ite_true]
        exact ih.cons b
      · simp only [List.filter_cons, hps, hpm, hpu, Bool.false_eq_true,
          ite_false, ite_true, List.cons_append, List.append_assoc]
        refine (List.perm_middle).trans (List.Perm.cons b ?_)
        exact List.append_assoc _ _ _ ▸ ih

theorem itemEq_none_decided {i s : Item} (hi : i.has_uri = none)
    (hs : s.has_uri ≠ none) (hn : s.has_uri = some false → i.name ≠ s.name) :
    itemEq i s = false := by
  match husi : s.has_uri with
  | some true => simp [itemEq, truthy, hi, husi]
  | some false =>
    have : i.name ≠ s.name := hn husi
    simp [itemEq, truthy, hi, husi, this]
  | none => exact absurd husi hs

theorem itemEq_assigned_decided {i s : Item} {u : String}
    (hu : u ≠ unavailableUriValue) (hs : s.has_uri ≠ none)
    (hsu : s.uri ≠ some u) :
    itemEq (setUri i (some u)) s = false := by
  have h2 : (setUri i (some u)).has_uri = some true := by
    simp [setUri, bne_iff_ne.mpr hu]
  match husi : s.has_uri with
  | some true =>
    have h3 : ((setUri i (some u)).uri == s.uri) = false := by
      simp only [setUri]
      exact beq_eq_false_iff_ne.mpr (fun hcontra => hsu hcontra.symm)
    simp [itemEq, truthy, h2, husi, h3]
  | some false => simp [itemEq, truthy, h2, husi]
  | none => exact absurd husi hs

theorem searchStep_classification (ctx : SearcherCtx) (c : MusifyCollection)
    (hm : ∀ r, MatcherOutput ctx r → truthy r.has_uri = true →
      ∃ u, r.uri = some u ∧ u ≠ unavailableUriValue ∧
        ∀ s ∈ c.items, s.has_uri ≠ none → s.uri ≠ some u)
    (hname : ∀ i ∈ c.items, i.has_uri = none →
      ∀ s ∈ c.items, s.has_uri = some false → i.name ≠ s.name)
    (a b : Item) (ha : a ∈ c.items) (hstep : SearchStep ctx a b) :
    (b = a ∧ (a.has_uri != none) = true ∧
      (truthy b.has_uri &&
        !(memEq b (c.items.filter (fun i => i.has_uri != none)))) = false ∧
      (b.has_uri == none &&
        !(memEq b (c.items.filter (fun i => i.has_uri != none)))) = false) ∨
    ((a.has_uri != none) = false ∧
      (((truthy b.has_uri &&
          !(memEq b (c.items.filter (fun i => i.has_uri != none)))) = true ∧
        (b.has_uri == none &&
          !(memEq b (c.items.filter (fun i => i.has_uri != none)))) = false) ∨
       ((truthy b.has_uri &&
          !(memEq b (c.items.filter (fun i => i.has_uri != none)))) = false ∧
        (b.has_uri == none &&
          !(memEq b (c.items.filter (fun i => i.has_uri != none)))) = true))) := by
  have hskipmem : ∀ s ∈ c.items.filter (fun i => i.has_uri != none),
      s ∈ c.items ∧ s.has_uri ≠ none := by
    intro s hsmem
    have := List.mem_filter.mp hsmem
    exact ⟨this.1, bne_iff_ne.mp this.2⟩
  by_cases hnone : a.has_uri = none
  · right
    refine ⟨by simp [hnone], ?_⟩
    rcases hstep.2 hnone with hb | ⟨r, hmo, htr, hb⟩
    · rw [hb]
      right
      have hmem0 : memEq a (c.items.filter (fun i => i.has_uri != none)) = false := by
        rw [memEq, List.any_eq_false]
        intro s hsmem
        simp only [Bool.not_eq_true]
        exact itemEq_none_decided hnone (hskipmem s hsmem).2
          (fun hsf => hname a ha hnone s (hskipmem s hsmem).1 hsf)
      constructor
      · simp [truthy, hnone]
      · simp [hnone, hmem0]
    · obtain ⟨u, hru, hu, hfresh⟩ := hm r hmo htr
      rw [hru] at hb
      rw [hb]
      left
      have hmem0 : memEq (setUri a (some u))
          (c.items.filter (fun i => i.has_uri != none)) = false := by
        rw [memEq, List.any_eq_false]
        intro s hsmem
        simp only [Bool.not_eq_true]
        exact itemEq_assigned_decided hu (hskipmem s hsmem).2
          (hfresh s (hskipmem s hsmem).1 (hskipmem s hsmem).2)
      have h2 : (setUri a (some u)).has_uri = some true := by
        simp [setUri, bne_iff_ne.mpr hu]
      constructor
      · simp [truthy, h2, hmem0]
      · simp [h2]
  · left
    have hb := hstep.1 hnone
    rw [hb]
    have hmem1 : memEq a (c.items.filter (fun i => i.has_uri != none)) = true :=
      memEq_of_mem (List.mem_filter.mpr ⟨ha, bne_iff_ne.mpr hnone⟩)
    exact ⟨rfl, bne_iff_ne.mpr hnone, by simp [hmem1], by simp [hmem1]⟩

/-- C1 as amended: the three sequences of an `ItemSearchResult` satisfy —
`skipped` is exactly the items whose `has_uri` was not `None` before the
search; `matched`, `unmatched` and `skipped` are pairwise disjoint
unconditionally; and together they are a permutation of the collection's
(final) item list — i.e. every item appears in exactly one sequence —
provided (`hm`) every matcher result carrying a truthy `has_uri` has a real
URI distinct from the URI of every pre-decided item of the collection, and
(`hname`) no unsearched item shares its name with an explicitly-unavailable
one.  Without these provisos an item whose final state compares equal
(`Item.__eq__`) to a skipped item is dropped from both `matched` and
`unmatched` (see the counterexample). -/
theorem search_result_partition (ctx : SearcherCtx) (collection : MusifyCollection)
    (res : ItemSearchResult) (items2 : List Item) (log : List String)
    (hrun : search_collection_items ctx collection = .ok (items2, log))
    (hres : search_collection ctx collection = .ok (res, log))
    (hm : ∀ r, MatcherOutput ctx r → truthy r.has_uri = true →
      ∃ u, r.uri = some u ∧ u ≠ unavailableUriValue ∧
        ∀ s ∈ collection.items, s.has_uri ≠ none → s.uri ≠ some u)
    (hname : ∀ i ∈ collection.items, i.has_uri = none →
      ∀ s ∈ collection.items, s.has_uri = some false → i.name ≠ s.name) :
    res.skipped = collection.items.filter (fun i => i.has_uri != none) ∧
    List.Perm (res.matched ++ res.unmatched ++ res.skipped) items2 ∧
    (∀ x ∈ res.matched, x ∉ res.unmatched ∧ x ∉ res.skipped) ∧
    (∀ x ∈ res.unmatched, x ∉ res.skipped) := by
  rw [search_collection, hrun] at hres
  simp only [Except.ok.injEq, Prod.mk.injEq] at hres
  obtain ⟨hrec, -⟩ := hres
  subst hrec
  refine ⟨rfl, ?_, ?_, ?_⟩
  · exact filter_partition_perm _ _ _
      (forall₂_and_mem (search_collection_items_searchStep ctx collection hrun)
        (searchStep_classification ctx collection hm hname))
  · intro x hx
    have hpm := (List.mem_filter.mp hx).2
    rw [Bool.and_eq_true] at hpm
    obtain ⟨htr, hnm⟩ := hpm
    rw [Bool.not_eq_true'] at hnm
    constructor
    · intro hxin
      have hpu := (List.mem_filter.mp hxin).2
      rw [Bool.and_eq_true] at hpu
      have hxn : x.has_uri = none := by simpa using hpu.1
      rw [hxn] at htr
      exact absurd htr (by simp [truthy])
    · intro hxin
      rw [memEq_of_mem hxin] at hnm
      exact absurd hnm (by simp)
  · intro x hx
    have hpu := (List.mem_filter.mp hx).2
    rw [Bool.and_eq_true] at hpu
    obtain ⟨-, hnm⟩ := hpu
    rw [Bool.not_eq_true'] at hnm
    intro hxin
    rw [memEq_of_mem hxin] at hnm
    exact absurd hnm (by simp)

/-- Witness for the amended C1 at a concrete input: `collMixed` holds one
pre-decided and one unsearched item with distinct names; against the
no-result API the searched item stays unmatched and the partition holds. -/
theorem search_result_partition_witness :
    ({ matched := [], unmatched := [itemTodo], skipped := [itemReal] } :
        ItemSearchResult).skipped
      = collMixed.items.filter (fun i => i.has_uri != none) ∧
    List.Perm
      (({ matched := [], unmatched := [itemTodo], skipped := [itemReal] } :
          ItemSearchResult).matched ++
        ({ matched := [], unmatched := [itemTodo], skipped := [itemReal] } :
          ItemSearchResult).unmatched ++
        ({ matched := [], unmatched := [itemTodo], skipped := [itemReal] } :
          ItemSearchResult).skipped)
      [itemReal, itemTodo] ∧
    (∀ x ∈ ({ matched := [], unmatched := [itemTodo], skipped := [itemReal] } :
        ItemSearchResult).matched,
      x ∉ ({ matched := [], unmatched := [itemTodo], skipped := [itemReal] } :
        ItemSearchResult).unmatched ∧
      x ∉ ({ matched := [], unmatched := [itemTodo], skipped := [itemReal] } :
        ItemSearchResult).skipped) ∧
    (∀ x ∈ ({ matched := [], unmatched := [itemTodo], skipped := [itemReal] } :
        ItemSearchResult).unmatched,
      x ∉ ({ matched := [], unmatched := [itemTodo], skipped := [itemReal] } :
        ItemSearchResult).skipped) :=
  search_result_partition ctx0 collMixed
    { matched := [], unmatched := [itemTodo], skipped := [itemReal] }
    [itemReal, itemTodo] ["todo", "todo", "todo"] (by decide) (by decide)
    (by
      intro r hmo htr
      obtain ⟨it, res, mo, mi, ma, ka, hc⟩ := hmo
      simp [ctx0] at hc)
    (by decide)

/-- C1 counterexample: in `collDup` the unsearched item `itemDupTodo` shares
its name with the explicitly-unavailable `itemDupUnavail`; after the search
finds nothing, `item not in skipped` (via `Item.__eq__`, which compares
names when neither side has a truthy `has_uri`) discards `itemDupTodo` from
`unmatched`, so this input item appears in none of the three sequences: the
partition invariant fails. -/
theorem search_result_partition_cex :
    search ctx0 [collDup] = .ok ([("dup", resDup)], ["dup", "dup", "dup"]) ∧
    search_collection ctx0 collDup = .ok (resDup, ["dup", "dup", "dup"]) ∧
    itemDupTodo ∈ collDup.items ∧
    ¬ (itemDupTodo ∈ resDup.matched ∨ itemDupTodo ∈ resDup.unmatched ∨
       itemDupTodo ∈ resDup.skipped) := by decide

end Syncify
